import Mathlib

/-!
# bold-minds/oss: a shallow embedding of `oss.go`

Go strings are byte sequences, so a string is a list of bytes here; `len`, slicing and
concatenation are the list operations.  The standard library functions the package calls
(`strings.ToUpper`, `fmt.Sprintf` with `%s` and `%d`, `fmt.Errorf`) are written out from their Go
definitions.  The Unicode case table behind `unicode.ToUpper` is not part of the repository and is
a parameter.  The identifier generator `github.com/bold-minds/id` is not part of the repository
either: the package functions take the generator as a parameter, and `id.NewGenerator` is the
identifier service the specification describes.
-/

namespace Oss

/-! ## Strings -/

/-- A Go `byte`. -/
abbrev Byte := Fin 256

/-- A Go `string`: an immutable sequence of bytes, not necessarily valid UTF-8. -/
abbrev GoString := List Byte

/-- The bytes of a string literal of the source, in UTF-8 as the Go compiler stores it. -/
def lit (s : String) : GoString :=
  (s.toList.flatMap String.utf8EncodeChar).map UInt8.val

/-- A Go `rune` (`int32`). -/
abbrev Rune := Int

/-- The conversion `byte(n)`: the low eight bits. -/
def toByte (n : Nat) : Byte := Fin.ofNat n

/-- A run-time panic of the Go runtime. -/
inductive Panic where
  /-- The panic `slice bounds out of range [:hi] with length len`. -/
  | sliceBoundsOutOfRange (hi len : Nat)
  deriving DecidableEq, Repr

/-- The slice expression `s[:hi]` on a string: it panics when `hi > len(s)`. -/
def sliceTo (s : GoString) (hi : Nat) : Except Panic GoString :=
  if hi ≤ s.length then .ok (s.take hi) else .error (.sliceBoundsOutOfRange hi s.length)

/-! ## `unicode/utf8` -/

namespace utf8

/-- The constant `utf8.RuneError`, U+FFFD. -/
def RuneError : Rune := 0xFFFD

/-- The constant `utf8.MaxRune`. -/
def MaxRune : Nat := 0x10FFFF

/-- The table `first` together with `acceptRanges`, for a lead byte that starts a sequence of
two to four bytes: the size of the sequence and the range accepted for its second byte.  `none`
is the entry `xx` of an invalid lead byte. -/
def first (s0 : Nat) : Option (Nat × Nat × Nat) :=
  if s0 < 0xC2 then none
  else if s0 < 0xE0 then some (2, 0x80, 0xBF)
  else if s0 = 0xE0 then some (3, 0xA0, 0xBF)
  else if s0 < 0xED then some (3, 0x80, 0xBF)
  else if s0 = 0xED then some (3, 0x80, 0x9F)
  else if s0 < 0xF0 then some (3, 0x80, 0xBF)
  else if s0 = 0xF0 then some (4, 0x90, 0xBF)
  else if s0 < 0xF4 then some (4, 0x80, 0xBF)
  else if s0 = 0xF4 then some (4, 0x80, 0x8F)
  else none

/-- The function `utf8.DecodeRuneInString`: the first rune of `s` and its width in bytes.  A byte
that does not start a valid sequence decodes as `RuneError` with width 1; the masks `s0 & mask`
are remainders and the shifts are multiplications. -/
def DecodeRuneInString (s : GoString) : Rune × Nat :=
  match s with
  | [] => (RuneError, 0)
  | s0 :: _ =>
    if s0.val < 0x80 then ((s0.val : Int), 1)
    else
      match first s0.val with
      | none => (RuneError, 1)
      | some (sz, lo, hi) =>
        if s.length < sz then (RuneError, 1)
        else
          let s1 := (s.getD 1 0).val
          if s1 < lo ∨ hi < s1 then (RuneError, 1)
          else if sz ≤ 2 then (((s0.val % 32 * 64 + s1 % 64 : Nat) : Int), 2)
          else
            let s2 := (s.getD 2 0).val
            if s2 < 0x80 ∨ 0xBF < s2 then (RuneError, 1)
            else if sz ≤ 3 then
              (((s0.val % 16 * 4096 + s1 % 64 * 64 + s2 % 64 : Nat) : Int), 3)
            else
              let s3 := (s.getD 3 0).val
              if s3 < 0x80 ∨ 0xBF < s3 then (RuneError, 1)
              else
                (((s0.val % 8 * 262144 + s1 % 64 * 4096 + s2 % 64 * 64 + s3 % 64 : Nat) : Int), 4)

/-- The function `utf8.AppendRune` on a rune that is not negative: one to four bytes; a
surrogate or a value above `MaxRune` is written as `RuneError`. -/
def AppendRune (r : Nat) : GoString :=
  if r ≤ 0x7F then [toByte r]
  else if r ≤ 0x7FF then [toByte (0xC0 + r / 64), toByte (0x80 + r % 64)]
  else if MaxRune < r ∨ (0xD800 ≤ r ∧ r ≤ 0xDFFF) then [0xEF, 0xBF, 0xBD]
  else if r ≤ 0xFFFF then
    [toByte (0xE0 + r / 4096), toByte (0x80 + r / 64 % 64), toByte (0x80 + r % 64)]
  else
    [toByte (0xF0 + r / 262144), toByte (0x80 + r / 4096 % 64), toByte (0x80 + r / 64 % 64),
      toByte (0x80 + r % 64)]

end utf8

/-- The runes a `for _, c := range s` loop reads, `fuel` bounding the number of iterations: at
each position the rune `DecodeRuneInString` finds, the position advancing by its width. -/
def rangeRunes : Nat → GoString → List Rune
  | 0, _ => []
  | fuel + 1, s =>
    if s = [] then []
    else (utf8.DecodeRuneInString s).1 :: rangeRunes fuel (s.drop (utf8.DecodeRuneInString s).2)

/-- The runes of a string as a `range` loop reads them; every iteration consumes at least one
byte, so `len(s)` iterations are enough. -/
def runes (s : GoString) : List Rune := rangeRunes s.length s

/-! ## `unicode` and `strings` -/

namespace unicode

/-- The function `unicode.ToUpper`.  `toUpperCase` stands for `unicode.To(unicode.UpperCase, r)`,
the lookup in the Unicode case table, which is consulted only above ASCII. -/
def ToUpper (toUpperCase : Rune → Rune) (r : Rune) : Rune :=
  if r ≤ 0x7F then
    if 97 ≤ r ∧ r ≤ 122 then r - 32 else r
  else toUpperCase r

end unicode

namespace strings

/-- The bytes the statement `if r >= 0 { b.WriteRune(r) }` of `strings.Map` appends: a negative
rune is dropped. -/
def writeRune (r : Rune) : GoString :=
  if 0 ≤ r then utf8.AppendRune r.toNat else []

/-- The function `strings.Map`: every rune of `s` is replaced by its image, written in UTF-8; a
negative image is dropped.  A byte of `s` that is not valid UTF-8 reads as `RuneError`. -/
def Map (mapping : Rune → Rune) (s : GoString) : GoString :=
  (runes s).flatMap fun c => writeRune (mapping c)

/-- The byte `c` after the statement `if 'a' <= c && c <= 'z' { c -= 'a' - 'A' }` of the ASCII
loop of `strings.ToUpper`. -/
def upperASCII (c : Byte) : Byte :=
  if 97 ≤ c.val ∧ c.val ≤ 122 then toByte (c.val - 32) else c

/-- The function `strings.ToUpper`: an ASCII-only string is handled byte by byte (and returned
as it is when it has no lower-case letter), any other string goes through `Map`. -/
def ToUpper (toUpperCase : Rune → Rune) (s : GoString) : GoString :=
  let isASCII := s.all fun c => decide (c.val < 0x80)
  let hasLower := s.any fun c => decide (97 ≤ c.val ∧ c.val ≤ 122)
  if isASCII then
    if !hasLower then s else s.map upperASCII
  else Map (unicode.ToUpper toUpperCase) s

end strings

/-! ## `fmt` -/

namespace fmt

/-- The digit loop of `fmt.fmtInteger` in base 10, `fuel` bounding the number of iterations:
while `u >= 10` the last digit is written and `u` becomes `u / 10`; the leading digit is written
last. -/
def fmtDigits : Nat → Nat → GoString
  | 0, u => [toByte (48 + u % 10)]
  | fuel + 1, u =>
    if 10 ≤ u then fmtDigits fuel (u / 10) ++ [toByte (48 + u % 10)] else [toByte (48 + u)]

/-- The verb `%d` on an `int`: a minus sign for a negative value, then the digits of its
magnitude. -/
def fmtInteger (v : Int) : GoString :=
  (if v < 0 then lit "-" else []) ++ fmtDigits v.natAbs v.natAbs

end fmt

/-- A Go `error` value: `nil`, or an error with its message (`fmt.Errorf`). -/
inductive GoError where
  | nil
  | Errorf (msg : GoString)
  deriving DecidableEq, Repr

/-- The method `Error()` of an error that is not nil. -/
def GoError.Error : GoError → Option GoString
  | .nil => none
  | .Errorf msg => some msg

/-! ## The identifier generator, as `oss.go` uses it -/

/-- Modelled from the spec: the error of the package `github.com/bold-minds/id`, which is not in
the repository: `Single error kind: InvalidFormat`. -/
inductive IdError where
  | InvalidFormat
  deriving DecidableEq, Repr

/-- The methods of the value `id.NewGenerator()` returns that `oss.go` calls.  `σ` is the state
outside the program (clock, entropy) that `Generate` and `Age` read; a `time.Time` is a count of
milliseconds since the epoch and a `time.Duration` a signed count of milliseconds. -/
structure Generator (σ : Type) where
  Generate : σ → GoString × σ
  IsIdValid : GoString → Bool
  ExtractTimestamp : GoString → Except IdError Nat
  Age : σ → GoString → Except IdError Int
  Compare : GoString → GoString → Except IdError Int

/-! ## `oss.go` -/

/-- The struct `ExampleStruct`. -/
structure ExampleStruct where
  ID : GoString
  Name : GoString
  Value : Int
  deriving DecidableEq, Repr

/-- The function `NewExampleStruct`; `gen` is the value of `id.NewGenerator()`.  The result is a
pointer: `none` is the nil pointer. -/
def NewExampleStruct {σ : Type} (gen : Generator σ) (w : σ) (name : GoString) (value : Int) :
    Option ExampleStruct × σ :=
  (some { ID := (gen.Generate w).1, Name := name, Value := value }, (gen.Generate w).2)

/-- The function `ExampleFunction`. -/
def ExampleFunction (toUpperCase : Rune → Rune) (input : GoString) : GoString :=
  if input = [] then lit "empty input"
  else lit "processed: " ++ strings.ToUpper toUpperCase input

/-- The method `Process`: `fmt.Sprintf("%s (ID: %s) has value %d", e.Name, e.ID[:8]+"...",
e.Value)`. -/
def ExampleStruct.Process (e : ExampleStruct) : Except Panic GoString := do
  let head ← sliceTo e.ID 8
  pure (e.Name ++ lit " (ID: " ++ (head ++ lit "...") ++ lit ") has value " ++
    fmt.fmtInteger e.Value)

/-- The method `Validate`; `gen` is the value of `id.NewGenerator()`. -/
def ExampleStruct.Validate {σ : Type} (gen : Generator σ) (e : ExampleStruct) : GoError :=
  if e.ID = [] then .Errorf (lit "ID cannot be empty")
  else if !gen.IsIdValid e.ID then .Errorf (lit "ID is not a valid ULID: " ++ e.ID)
  else if e.Name = [] then .Errorf (lit "name cannot be empty")
  else if e.Value < 0 then .Errorf (lit "value cannot be negative")
  else .nil

/-- The function `GenerateID`. -/
def GenerateID {σ : Type} (gen : Generator σ) (w : σ) : GoString × σ :=
  gen.Generate w

/-- The function `GetIDTimestamp`. -/
def GetIDTimestamp {σ : Type} (gen : Generator σ) (idStr : GoString) : Except IdError Nat :=
  gen.ExtractTimestamp idStr

/-- The function `GetIDAge`. -/
def GetIDAge {σ : Type} (gen : Generator σ) (w : σ) (idStr : GoString) : Except IdError Int :=
  gen.Age w idStr

/-- The function `CompareIDs`. -/
def CompareIDs {σ : Type} (gen : Generator σ) (id1 id2 : GoString) : Except IdError Int :=
  gen.Compare id1 id2

/-! ## Decimal numerals -/

/-- The decimal numeral of a natural number: its base-10 digits, most significant first, as
ASCII digits; `0` is written `0`. -/
def decimalNat (n : Nat) : GoString :=
  if n = 0 then lit "0" else (Nat.digits 10 n).reverse.map fun d => toByte (48 + d)

/-- The decimal rendering of an integer: the numeral of its magnitude, after a minus sign when
it is negative. -/
def decimal (v : Int) : GoString :=
  (if v < 0 then lit "-" else []) ++ decimalNat v.natAbs

/-! ## The identifier service -/

namespace id

/-- Modelled from the spec: the character alphabet of an identifier of
`github.com/bold-minds/id`, a package that is not in the repository.  The spec asks for a `valid
character alphabet` and calls the token ULID-like, and the source calls it a ULID: the alphabet
of a ULID is Crockford base 32, in upper case. -/
def alphabet : GoString := lit "0123456789ABCDEFGHJKMNPQRSTVWXYZ"

/-- Modelled from the spec: the value of a character of the alphabet (absent from the
repository), its position in the alphabet. -/
def digitValue (b : Byte) : Nat := alphabet.indexOf b

/-- Modelled from the spec: the character of the alphabet (absent from the repository) that
stands for the base-32 digit `d`. -/
def encodeChar (d : Nat) : Byte := alphabet.getD d 0

/-- Modelled from the spec: the fixed-width base-32 numeral the portions of an identifier are
written in (the encoder is absent from the repository): `width` characters, most significant
first, of `n` modulo `32 ^ width`. -/
def encodeBase32 : Nat → Nat → GoString
  | 0, _ => []
  | width + 1, n => encodeBase32 width (n / 32) ++ [encodeChar (n % 32)]

/-- Modelled from the spec: the number a run of characters encodes (the decoder is absent from
the repository). -/
def decodeBase32 (s : GoString) : Nat :=
  s.foldl (fun acc b => acc * 32 + digitValue b) 0

/-- Modelled from the spec: the length of an identifier (a constant absent from the repository),
`fixed-length (26-character)`. -/
def EncodedSize : Nat := 26

/-- Modelled from the spec: the length of the leading portion of an identifier, which `encodes a
creation timestamp (millisecond resolution)` (a constant absent from the repository); in a ULID
it is 10 characters holding 48 bits. -/
def TimestampSize : Nat := 10

/-- Modelled from the spec: the largest timestamp an identifier holds (a constant absent from
the repository), 48 bits of milliseconds in a ULID. -/
def MaxTime : Nat := 2 ^ 48 - 1

/-- Modelled from the spec: the creation time in milliseconds that the leading portion of a
token encodes (the decoder is absent from the repository). -/
def timestampOf (token : GoString) : Nat := decodeBase32 (token.take TimestampSize)

/-- Modelled from the spec: `IsValid(token)`, the method `IsIdValid` of the absent package: a
`pure structural check: correct length, valid character alphabet, parseable timestamp segment`,
which `always returns a boolean`. -/
def IsIdValid (token : GoString) : Bool :=
  token.length == EncodedSize && token.all (fun b => decide (b ∈ alphabet)) &&
    decide (timestampOf token ≤ MaxTime)

/-- Modelled from the spec: the `internal entropy/clock source` of the generator of the absent
package: the wall clock in milliseconds since the epoch, the random source as the sequence of
its draws, and the number of draws made so far. -/
structure World where
  nowMs : Nat
  entropy : Nat → Nat
  draws : Nat

/-- Modelled from the spec: `Generate()`, of the absent package: a 26-character token with the
clock reading in its leading portion and one draw of the random source in its trailing portion
(16 characters, 80 bits); it always succeeds and changes nothing but the state of the random
source.  The leading portion holds 48 bits: a clock reading in that range is written as it is,
a larger one modulo `2 ^ 48`. -/
def Generate (w : World) : GoString × World :=
  (encodeBase32 TimestampSize (w.nowMs % 2 ^ 48) ++
      encodeBase32 (EncodedSize - TimestampSize) (w.entropy w.draws % 2 ^ 80),
    { w with draws := w.draws + 1 })

/-- Modelled from the spec: `ExtractTimestamp(token)`, of the absent package: the timestamp, and
it `fails with InvalidFormat when token does not satisfy IsValid`. -/
def ExtractTimestamp (token : GoString) : Except IdError Nat :=
  if IsIdValid token then .ok (timestampOf token) else .error .InvalidFormat

/-- Modelled from the spec: `Age(token)`, of the absent package: `wall-clock-now minus extracted
timestamp`, failing `with InvalidFormat under the same condition as ExtractTimestamp`.  The
difference is signed: it is negative for a timestamp in the future. -/
def Age (w : World) (token : GoString) : Except IdError Int :=
  if IsIdValid token then .ok ((w.nowMs : Int) - (timestampOf token : Int))
  else .error .InvalidFormat

/-- Modelled from the spec: the `raw lexicographic token order` that breaks ties in `Compare`
(absent from the repository), as -1, 0 or 1. -/
def lexCompare : GoString → GoString → Int
  | [], [] => 0
  | [], _ :: _ => -1
  | _ :: _, [] => 1
  | a :: as, b :: bs => if a < b then -1 else if b < a then 1 else lexCompare as bs

/-- Modelled from the spec: `Compare(tokenA, tokenB)`, of the absent package: the
`chronological order (by embedded timestamp, tie-broken by raw lexicographic token order for
identical millisecond timestamps)`, and it `fails with InvalidFormat if either token is
invalid`. -/
def Compare (tokenA tokenB : GoString) : Except IdError Int :=
  if IsIdValid tokenA && IsIdValid tokenB then
    .ok (if timestampOf tokenA < timestampOf tokenB then -1
      else if timestampOf tokenB < timestampOf tokenA then 1
      else lexCompare tokenA tokenB)
  else .error .InvalidFormat

/-- Modelled from the spec: `id.NewGenerator()`, of the absent package: the identifier service
of the spec, with the method names `oss.go` calls. -/
def NewGenerator : Generator World where
  Generate := Generate
  IsIdValid := IsIdValid
  ExtractTimestamp := ExtractTimestamp
  Age := Age
  Compare := Compare

/-- Modelled from the spec: what makes a token a valid identifier (stated in the spec, absent
from the repository): `correct length, valid character alphabet, parseable timestamp segment`. -/
def WellFormed (token : GoString) : Prop :=
  token.length = EncodedSize ∧ (∀ b ∈ token, b ∈ alphabet) ∧ timestampOf token ≤ MaxTime

instance (token : GoString) : Decidable (WellFormed token) := by
  unfold WellFormed
  infer_instance

/-- A state of the clock and the random source, for the examples. -/
def exampleWorld : World := { nowMs := 1469918176385, entropy := fun n => 2 * n + 1, draws := 0 }

end id

/-- An identifier for the examples: the sample of the ULID specification. -/
def exampleID : GoString := lit "01ARZ3NDEKTSV4RRFFQ69G5FAV"

/-! # Theorems -/

/-! ## Strings and `strings.ToUpper` -/

theorem toByte_of_lt {n : Nat} (h : n < 256) : (toByte n).val = n := by
  simp [toByte, Fin.ofNat, Nat.mod_eq_of_lt h]

theorem toByte_val (b : Byte) : toByte b.val = b := by
  apply Fin.ext
  exact toByte_of_lt b.isLt

theorem rangeRunes_ascii (s : GoString) (h : ∀ b ∈ s, b.val < 0x80) (fuel : Nat)
    (hf : s.length ≤ fuel) : rangeRunes fuel s = s.map fun b => (b.val : Int) := by
  induction s generalizing fuel with
  | nil => cases fuel <;> simp [rangeRunes]
  | cons b rest ih =>
    cases fuel with
    | zero => simp at hf
    | succ fuel =>
      have hb : b.val < 0x80 := h b (List.mem_cons_self b rest)
      have hrest : ∀ c ∈ rest, c.val < 0x80 := fun c hc => h c (List.mem_cons_of_mem b hc)
      have hlen : rest.length ≤ fuel := by simpa using hf
      simp [rangeRunes, utf8.DecodeRuneInString, hb, ih hrest fuel hlen]

theorem runes_ascii (s : GoString) (h : ∀ b ∈ s, b.val < 0x80) :
    runes s = s.map fun b => (b.val : Int) :=
  rangeRunes_ascii s h s.length (Nat.le_refl _)

/-- Every rune of a non-empty string has a width of at least one byte. -/
theorem DecodeRuneInString_width_pos (s : GoString) (h : s ≠ []) :
    1 ≤ (utf8.DecodeRuneInString s).2 := by
  cases s with
  | nil => exact absurd rfl h
  | cons s0 rest =>
    unfold utf8.DecodeRuneInString
    simp only
    repeat' split
    all_goals simp

/-- The `range` loop ends within `len(s)` iterations: more fuel reads the same runes. -/
theorem rangeRunes_fuel (fuel : Nat) : ∀ (s : GoString) (extra : Nat), s.length ≤ fuel →
    rangeRunes (fuel + extra) s = rangeRunes fuel s := by
  induction fuel with
  | zero =>
    intro s extra hs
    have : s = [] := List.length_eq_zero.mp (by omega)
    subst this
    cases extra <;> simp [rangeRunes]
  | succ fuel ih =>
    intro s extra hs
    have hsucc : fuel + 1 + extra = (fuel + extra) + 1 := by omega
    rw [hsucc]
    unfold rangeRunes
    by_cases hnil : s = []
    · simp [hnil]
    · simp only [if_neg hnil]
      have hw := DecodeRuneInString_width_pos s hnil
      have hpos : 0 < s.length := List.length_pos.mpr hnil
      have hlen : (s.drop (utf8.DecodeRuneInString s).2).length ≤ fuel := by
        rw [List.length_drop]; omega
      rw [ih _ extra hlen]

/-- On an ASCII-only string `strings.ToUpper` maps `upperASCII` over the bytes. -/
theorem ToUpper_ascii (t : Rune → Rune) (s : GoString) (h : ∀ b ∈ s, b.val < 0x80) :
    strings.ToUpper t s = s.map strings.upperASCII := by
  have hall : (s.all fun c => decide (c.val < 0x80)) = true := by
    simpa [List.all_eq_true] using h
  unfold strings.ToUpper
  simp only [hall, if_true]
  by_cases hl : (s.any fun c => decide (97 ≤ c.val ∧ c.val ≤ 122)) = true
  · simp only [hl, Bool.not_true, Bool.false_eq_true, if_false]
  · have hno : ∀ c ∈ s, ¬ (97 ≤ c.val ∧ c.val ≤ 122) := by
      intro c hc hcl
      apply hl
      rw [List.any_eq_true]
      exact ⟨c, hc, by simpa using hcl⟩
    have hid : s.map strings.upperASCII = s := by
      conv_rhs => rw [← List.map_id s]
      apply List.map_congr_left
      intro c hc
      simp [strings.upperASCII, hno c hc]
    simp [hl, hid]

/-- The image of an ASCII byte under `unicode.ToUpper`, written by `writeRune`, is the one byte
`upperASCII` gives. -/
theorem writeRune_upper_ascii (t : Rune → Rune) (b : Byte) (hb : b.val < 0x80) :
    strings.writeRune (unicode.ToUpper t (b.val : Int)) = [strings.upperASCII b] := by
  have h1 : ((b.val : Nat) : Int) ≤ 0x7F := by omega
  unfold strings.writeRune unicode.ToUpper strings.upperASCII
  rw [if_pos h1]
  by_cases hl : 97 ≤ b.val ∧ b.val ≤ 122
  · have hl2 : (97 : Int) ≤ (b.val : Int) ∧ ((b.val : Nat) : Int) ≤ 122 := by omega
    rw [if_pos hl2, if_pos hl]
    have h0 : (0 : Int) ≤ (b.val : Int) - 32 := by omega
    have hn : ((b.val : Int) - 32).toNat = b.val - 32 := by omega
    rw [if_pos h0, hn]
    have : b.val - 32 ≤ 0x7F := by omega
    simp [utf8.AppendRune, this]
  · have hl2 : ¬ ((97 : Int) ≤ (b.val : Int) ∧ ((b.val : Nat) : Int) ≤ 122) := by omega
    rw [if_neg hl2, if_neg hl]
    have h0 : (0 : Int) ≤ (b.val : Int) := by omega
    have hle : b.val ≤ 0x7F := by omega
    rw [if_pos h0]
    simp [utf8.AppendRune, hle, toByte_val]

/-- The function `strings.ToUpper` is `strings.Map` of `unicode.ToUpper` on every string: the
ASCII loop and the general path agree. -/
theorem ToUpper_eq_Map (t : Rune → Rune) (s : GoString) :
    strings.ToUpper t s = strings.Map (unicode.ToUpper t) s := by
  by_cases h : ∀ b ∈ s, b.val < 0x80
  · rw [ToUpper_ascii t s h]
    unfold strings.Map
    rw [runes_ascii s h]
    have key : ∀ l : GoString, (∀ b ∈ l, b.val < 0x80) →
        (l.map fun b => (b.val : Int)).flatMap (fun c =>
          strings.writeRune (unicode.ToUpper t c)) = l.map strings.upperASCII := by
      intro l
      induction l with
      | nil => intro _; rfl
      | cons b rest ih =>
        intro hl
        have hb := hl b (List.mem_cons_self b rest)
        have hrest : ∀ c ∈ rest, c.val < 0x80 := fun c hc => hl c (List.mem_cons_of_mem b hc)
        simp only [List.map_cons, List.flatMap_cons]
        rw [writeRune_upper_ascii t b hb, ih hrest]
        rfl
    exact (key s h).symm
  · have hall : (s.all fun c => decide (c.val < 0x80)) = false := by
      rw [Bool.eq_false_iff]
      intro hc
      apply h
      simpa [List.all_eq_true] using hc
    unfold strings.ToUpper
    simp [hall]

/-! ## `%d` -/

/-- With enough fuel the digit loop of `fmtInteger` writes the decimal numeral. -/
theorem fmtDigits_eq_decimalNat (fuel : Nat) : ∀ u : Nat, u ≤ fuel →
    fmt.fmtDigits fuel u = decimalNat u := by
  induction fuel with
  | zero =>
    intro u hu
    have : u = 0 := by omega
    subst this
    decide
  | succ fuel ih =>
    intro u hu
    unfold fmt.fmtDigits
    by_cases h10 : 10 ≤ u
    · rw [if_pos h10, ih (u / 10) (by omega)]
      have hu0 : u ≠ 0 := by omega
      have hq0 : u / 10 ≠ 0 := by omega
      have hd : Nat.digits 10 u = u % 10 :: Nat.digits 10 (u / 10) :=
        Nat.digits_def' (by omega) (by omega)
      unfold decimalNat
      rw [if_neg hu0, if_neg hq0, hd]
      simp
    · rw [if_neg h10]
      unfold decimalNat
      by_cases hu0 : u = 0
      · subst hu0; decide
      · rw [if_neg hu0, Nat.digits_of_lt 10 u hu0 (by omega)]
        simp

/-- The verb `%d` writes the decimal rendering of its argument. -/
theorem fmtInteger_eq_decimal (v : Int) : fmt.fmtInteger v = decimal v := by
  unfold fmt.fmtInteger decimal
  rw [fmtDigits_eq_decimalNat v.natAbs v.natAbs (Nat.le_refl _)]

/-! ## The identifier service -/

namespace id

theorem encodeChar_mem {d : Nat} (hd : d < 32) : encodeChar d ∈ alphabet := by
  interval_cases d <;> decide

theorem digitValue_encodeChar {d : Nat} (hd : d < 32) : digitValue (encodeChar d) = d := by
  interval_cases d <;> decide

theorem length_encodeBase32 (width n : Nat) : (encodeBase32 width n).length = width := by
  induction width generalizing n with
  | zero => rfl
  | succ width ih => simp [encodeBase32, ih]

theorem mem_alphabet_of_mem_encodeBase32 (width n : Nat) :
    ∀ b ∈ encodeBase32 width n, b ∈ alphabet := by
  induction width generalizing n with
  | zero => intro b hb; simp [encodeBase32] at hb
  | succ width ih =>
    intro b hb
    simp only [encodeBase32, List.mem_append, List.mem_singleton] at hb
    rcases hb with hb | hb
    · exact ih (n / 32) b hb
    · rw [hb]; exact encodeChar_mem (Nat.mod_lt _ (by omega))

theorem decodeBase32_encodeBase32 (width n : Nat) :
    decodeBase32 (encodeBase32 width n) = n % 32 ^ width := by
  induction width generalizing n with
  | zero => simp [encodeBase32, decodeBase32, Nat.mod_one]
  | succ width ih =>
    have h := ih (n / 32)
    unfold decodeBase32 at h ⊢
    simp only [encodeBase32, List.foldl_append, List.foldl_cons, List.foldl_nil]
    rw [h, digitValue_encodeChar (Nat.mod_lt _ (by omega)), pow_succ,
      Nat.mul_comm (32 ^ width) 32, Nat.mod_mul]
    ring


theorem timestampOf_append (a : Nat) (rest : GoString) :
    timestampOf (encodeBase32 TimestampSize a ++ rest) = a % 32 ^ TimestampSize := by
  unfold timestampOf
  rw [List.take_left' (length_encodeBase32 TimestampSize a), decodeBase32_encodeBase32]

/-- The token `Generate` returns has 26 characters. -/
theorem length_Generate (w : World) : (Generate w).1.length = 26 := by
  simp [Generate, length_encodeBase32, TimestampSize, EncodedSize]

/-- The token `Generate` returns passes the validity check. -/
theorem IsIdValid_Generate (w : World) : IsIdValid (Generate w).1 = true := by
  have hlen := length_Generate w
  have hts : timestampOf (Generate w).1 ≤ MaxTime := by
    unfold Generate
    rw [timestampOf_append]
    have h1 : w.nowMs % 2 ^ 48 < 2 ^ 48 := Nat.mod_lt _ (by norm_num)
    have h2 : w.nowMs % 2 ^ 48 % 32 ^ TimestampSize ≤ w.nowMs % 2 ^ 48 := Nat.mod_le _ _
    unfold MaxTime
    omega
  have hall : (Generate w).1.all (fun b => decide (b ∈ alphabet)) = true := by
    rw [List.all_eq_true]
    intro b hb
    simp only [Generate, List.mem_append] at hb
    rcases hb with hb | hb
    · simpa using mem_alphabet_of_mem_encodeBase32 _ _ b hb
    · simpa using mem_alphabet_of_mem_encodeBase32 _ _ b hb
  unfold IsIdValid
  simp only [hlen, hall, hts, EncodedSize, beq_self_eq_true, decide_True, Bool.and_self]

/-- The timestamp of a generated token is the clock reading, when the clock is in the range of
the format. -/
theorem ExtractTimestamp_Generate (w : World) (h : w.nowMs ≤ MaxTime) :
    ExtractTimestamp (Generate w).1 = Except.ok w.nowMs := by
  have hlt : w.nowMs < 2 ^ 48 := by unfold MaxTime at h; omega
  have hts : timestampOf (Generate w).1 = w.nowMs := by
    unfold Generate
    rw [timestampOf_append, Nat.mod_eq_of_lt hlt, Nat.mod_eq_of_lt]
    unfold TimestampSize
    omega
  simp [ExtractTimestamp, IsIdValid_Generate, hts]

theorem lexCompare_self (x : GoString) : lexCompare x x = 0 := by
  induction x with
  | nil => rfl
  | cons a rest ih => simp [lexCompare, ih]

theorem lexCompare_range (x y : GoString) :
    lexCompare x y = -1 ∨ lexCompare x y = 0 ∨ lexCompare x y = 1 := by
  induction x generalizing y with
  | nil => cases y <;> simp [lexCompare]
  | cons a rest ih =>
    cases y with
    | nil => simp [lexCompare]
    | cons b bs =>
      unfold lexCompare
      by_cases h1 : a < b
      · simp [h1]
      · by_cases h2 : b < a
        · simp [h1, h2]
        · simpa [h1, h2] using ih bs

end id

/-! ## The claims on `ExampleFunction` -/

/-- C1, as the code has it: `ExampleFunction` returns `empty input` on the empty string and
otherwise `processed: ` followed by `strings.ToUpper` of the input, which is the runes of the
input as a `range` loop reads them (a byte that is not valid UTF-8 reads as U+FFFD), each mapped
by `unicode.ToUpper` and written in UTF-8.  An ASCII rune is written as one byte, the upper-case
letter for `a` to `z` and the rune itself otherwise; so on an ASCII-only input the result is the
input with every lower-case letter in upper case and every other byte unchanged in its place,
nothing trimmed or dropped. -/
theorem ExampleFunction_spec (toUpperCase : Rune → Rune) (s : GoString) :
    (s = [] → ExampleFunction toUpperCase s = lit "empty input") ∧
    (s ≠ [] → ExampleFunction toUpperCase s =
      lit "processed: " ++
        (runes s).flatMap fun c => strings.writeRune (unicode.ToUpper toUpperCase c)) ∧
    (∀ b : Byte, b.val < 0x80 →
      strings.writeRune (unicode.ToUpper toUpperCase (b.val : Int)) =
        [if 97 ≤ b.val ∧ b.val ≤ 122 then toByte (b.val - 32) else b]) ∧
    (s ≠ [] → (∀ b ∈ s, b.val < 0x80) → ExampleFunction toUpperCase s =
      lit "processed: " ++ s.map fun c =>
        if 97 ≤ c.val ∧ c.val ≤ 122 then toByte (c.val - 32) else c) := by
  refine ⟨?_, ?_, ?_, ?_⟩
  · intro h
    simp [ExampleFunction, h]
  · intro h
    simp only [ExampleFunction, if_neg h, ToUpper_eq_Map]
    rfl
  · intro b hb
    exact writeRune_upper_ascii toUpperCase b hb
  · intro h hascii
    simp only [ExampleFunction, if_neg h, ToUpper_ascii toUpperCase s hascii]
    rfl

set_option maxRecDepth 100000 in
/-- The example `"  hello  "` of C1, with a case table that changes nothing. -/
theorem ExampleFunction_spec_witness :
    (lit "  hello  " ≠ [] ∧ ∀ b ∈ lit "  hello  ", b.val < 0x80) ∧
      ExampleFunction (fun r => r) (lit "  hello  ") = lit "processed:   HELLO  " :=
  ⟨⟨by decide, by decide⟩,
    ((ExampleFunction_spec (fun r => r) (lit "  hello  ")).2.2.2 (by decide) (by decide)).trans
      (by decide)⟩

theorem AppendRune_ne_invalid_byte (n : Nat) : utf8.AppendRune n ≠ [0xFF] := by
  unfold utf8.AppendRune
  split
  · rename_i h
    intro hc
    have h1 : (toByte n).val = n := toByte_of_lt (by omega)
    have h2 : toByte n = (0xFF : Byte) := by simpa using hc
    rw [h2] at h1
    have h3 : ((0xFF : Byte) : Nat) = 255 := rfl
    omega
  · split
    · simp
    · split
      · simp
      · split <;> simp

/-- C1 fails on a string that is not valid UTF-8.  The one-byte string `"\xff"` has no
lower-case letter, so the claim gives `processed: ` followed by the same byte; the code returns
`processed: ` followed by U+FFFD in UTF-8 (here with a case table that leaves U+FFFD alone, as
the Unicode table does), and with no case table does it return the byte unchanged. -/
theorem ExampleFunction_invalid_utf8 :
    ExampleFunction (fun r => r) [0xFF] = lit "processed: " ++ [0xEF, 0xBF, 0xBD] ∧
      ¬ ∃ toUpperCase : Rune → Rune,
        ExampleFunction toUpperCase [0xFF] = lit "processed: " ++ [0xFF] := by
  refine ⟨by decide, ?_⟩
  rintro ⟨t, ht⟩
  have hne : ([0xFF] : GoString) ≠ [] := by decide
  simp only [ExampleFunction, if_neg hne, ToUpper_eq_Map, strings.Map] at ht
  have h2 := List.append_cancel_left ht
  have hr : runes ([0xFF] : GoString) = [utf8.RuneError] := by decide
  rw [hr] at h2
  simp only [List.flatMap_cons, List.flatMap_nil, List.append_nil, strings.writeRune] at h2
  split at h2
  · exact AppendRune_ne_invalid_byte _ h2
  · simp at h2

/-! ## The claims on `ExampleStruct` -/

theorem Validate_eq_nil_iff {σ : Type} (gen : Generator σ) (e : ExampleStruct) :
    e.Validate gen = GoError.nil ↔
      (e.ID ≠ [] ∧ gen.IsIdValid e.ID = true ∧ e.Name ≠ [] ∧ 0 ≤ e.Value) := by
  unfold ExampleStruct.Validate
  by_cases h1 : e.ID = []
  · simp [h1]
  · by_cases h2 : gen.IsIdValid e.ID = true
    · by_cases h3 : e.Name = []
      · simp [h1, h2, h3]
      · by_cases h4 : e.Value < 0
        · simp [h1, h2, h3, h4]
        · simp [h1, h2, h3, h4]
          omega
    · simp [h1, h2]

theorem NewGenerator_Generate : id.NewGenerator.Generate = id.Generate := rfl

theorem NewGenerator_IsIdValid : id.NewGenerator.IsIdValid = id.IsIdValid := rfl

theorem NewGenerator_ExtractTimestamp :
    id.NewGenerator.ExtractTimestamp = id.ExtractTimestamp := rfl

theorem NewGenerator_Age : id.NewGenerator.Age = id.Age := rfl

theorem NewGenerator_Compare : id.NewGenerator.Compare = id.Compare := rfl

theorem Generate_ne_nil (w : id.World) : (id.Generate w).1 ≠ [] := by
  intro h
  have := id.length_Generate w
  rw [h] at this
  simp at this

/-- C2: `Validate` returns no error exactly when the ID is non-empty and accepted by
`IsIdValid`, the name is non-empty and the value is at least zero; and when the generator
returns non-empty identifiers that pass its own check, a struct built by `NewExampleStruct` with
a non-empty name and a value that is not negative passes validation. -/
theorem Validate_nil_iff {σ : Type} (gen : Generator σ) :
    (∀ e : ExampleStruct, e.Validate gen = GoError.nil ↔
      (e.ID ≠ [] ∧ gen.IsIdValid e.ID = true ∧ e.Name ≠ [] ∧ 0 ≤ e.Value)) ∧
    ((∀ w, (gen.Generate w).1 ≠ [] ∧ gen.IsIdValid (gen.Generate w).1 = true) →
      ∀ (w : σ) (name : GoString) (value : Int), name ≠ [] → 0 ≤ value →
        ∃ e, (NewExampleStruct gen w name value).1 = some e ∧ e.Validate gen = GoError.nil) := by
  refine ⟨Validate_eq_nil_iff gen, ?_⟩
  intro hgen w name value hname hvalue
  refine ⟨_, rfl, ?_⟩
  rw [Validate_eq_nil_iff]
  exact ⟨(hgen w).1, (hgen w).2, hname, hvalue⟩

/-- The test `Validate - valid` of C2, with the identifier service of the spec as generator. -/
theorem Validate_nil_iff_witness :
    (∀ w, (id.NewGenerator.Generate w).1 ≠ [] ∧
        id.NewGenerator.IsIdValid (id.NewGenerator.Generate w).1 = true) ∧
      ∃ e, (NewExampleStruct id.NewGenerator id.exampleWorld (lit "test") 42).1 = some e ∧
        e.Validate id.NewGenerator = GoError.nil := by
  have hgen : ∀ w, (id.NewGenerator.Generate w).1 ≠ [] ∧
      id.NewGenerator.IsIdValid (id.NewGenerator.Generate w).1 = true := by
    intro w
    rw [NewGenerator_Generate, NewGenerator_IsIdValid]
    exact ⟨Generate_ne_nil w, id.IsIdValid_Generate w⟩
  have hname : lit "test" ≠ [] := by decide
  exact ⟨hgen, (Validate_nil_iff id.NewGenerator).2 hgen id.exampleWorld (lit "test") (42 : Int)
    hname (by decide)⟩

/-- C3: a struct with a non-empty ID that `IsIdValid` accepts and an empty name fails
validation with the message `name cannot be empty`, whatever its value. -/
theorem Validate_empty_name {σ : Type} (gen : Generator σ) (e : ExampleStruct)
    (hID : e.ID ≠ []) (hvalid : gen.IsIdValid e.ID = true) (hname : e.Name = []) :
    e.Validate gen = GoError.Errorf (lit "name cannot be empty") ∧
      (e.Validate gen).Error = some (lit "name cannot be empty") := by
  simp [ExampleStruct.Validate, hID, hvalid, hname, GoError.Error]

set_option maxRecDepth 100000 in
/-- C3 at a struct with a valid ID, an empty name and a negative value. -/
theorem Validate_empty_name_witness :
    (exampleID ≠ [] ∧ id.NewGenerator.IsIdValid exampleID = true) ∧
      (ExampleStruct.mk exampleID [] (-1)).Validate id.NewGenerator =
        GoError.Errorf (lit "name cannot be empty") :=
  ⟨⟨by decide, by decide⟩,
    (Validate_empty_name id.NewGenerator (ExampleStruct.mk exampleID [] (-1))
      (by decide) (by decide) rfl).1⟩

/-- C4: a struct with a non-empty ID that `IsIdValid` accepts, a non-empty name and a negative
value fails validation with the message `value cannot be negative`. -/
theorem Validate_negative_value {σ : Type} (gen : Generator σ) (e : ExampleStruct)
    (hID : e.ID ≠ []) (hvalid : gen.IsIdValid e.ID = true) (hname : e.Name ≠ [])
    (hvalue : e.Value < 0) :
    e.Validate gen = GoError.Errorf (lit "value cannot be negative") ∧
      (e.Validate gen).Error = some (lit "value cannot be negative") := by
  simp [ExampleStruct.Validate, hID, hvalid, hname, hvalue, GoError.Error]

set_option maxRecDepth 100000 in
/-- C4 at the struct of the test `Validate - negative value`. -/
theorem Validate_negative_value_witness :
    (exampleID ≠ [] ∧ id.NewGenerator.IsIdValid exampleID = true ∧ lit "test" ≠ [] ∧
        (-1 : Int) < 0) ∧
      (ExampleStruct.mk exampleID (lit "test") (-1)).Validate id.NewGenerator =
        GoError.Errorf (lit "value cannot be negative") :=
  ⟨⟨by decide, by decide, by decide, by decide⟩,
    (Validate_negative_value id.NewGenerator (ExampleStruct.mk exampleID (lit "test") (-1))
      (by decide) (by decide) (by decide) (by decide)).1⟩

theorem lit_ellipsis : lit "..." ++ lit ") has value " = lit "...) has value " := by decide

/-- C5: when the ID has at least 8 bytes, `Process` returns the name, ` (ID: `, the first 8
bytes of the ID, `...) has value ` and the decimal rendering of the value. -/
theorem Process_eq (e : ExampleStruct) (h : 8 ≤ e.ID.length) :
    e.Process = Except.ok
      (e.Name ++ lit " (ID: " ++ e.ID.take 8 ++ lit "...) has value " ++ decimal e.Value) := by
  simp only [ExampleStruct.Process, sliceTo, if_pos h, fmtInteger_eq_decimal, ← lit_ellipsis]
  simp [bind, Except.bind, pure, Except.pure]

set_option maxRecDepth 100000 in
/-- C5 at the struct of the test `Process`. -/
theorem Process_eq_witness :
    8 ≤ exampleID.length ∧
      (ExampleStruct.mk exampleID (lit "test") 42).Process =
        Except.ok (lit "test (ID: 01ARZ3ND...) has value 42") :=
  ⟨by decide, (Process_eq (ExampleStruct.mk exampleID (lit "test") 42) (by decide)).trans
    (by rw [← fmtInteger_eq_decimal]; exact congrArg Except.ok (by decide))⟩

/-- C6: `NewExampleStruct` returns a pointer that is not nil, to a struct with the name and the
value it was given, unchanged and unchecked, and with the identifier the generator produced. -/
theorem NewExampleStruct_fields {σ : Type} (gen : Generator σ) (w : σ) (name : GoString)
    (value : Int) :
    ∃ e, (NewExampleStruct gen w name value).1 = some e ∧ e.Name = name ∧ e.Value = value ∧
      e.ID = (gen.Generate w).1 :=
  ⟨_, rfl, rfl, rfl, rfl⟩

/-- C10: `Process` returns a string exactly when the ID has at least 8 bytes, whatever the name,
the value and the validity of the ID; with a shorter ID the slice `e.ID[:8]` is out of range and
`Process` panics; in particular with the empty ID, which `Validate` reports as an ordinary
error. -/
theorem Process_returns_iff (e : ExampleStruct) :
    ((∃ s, e.Process = Except.ok s) ↔ 8 ≤ e.ID.length) ∧
    (e.ID.length < 8 → e.Process = Except.error (Panic.sliceBoundsOutOfRange 8 e.ID.length)) ∧
    (e.ID = [] → e.Process = Except.error (Panic.sliceBoundsOutOfRange 8 0) ∧
      ∀ (σ : Type) (gen : Generator σ),
        e.Validate gen = GoError.Errorf (lit "ID cannot be empty")) := by
  have hshort : e.ID.length < 8 →
      e.Process = Except.error (Panic.sliceBoundsOutOfRange 8 e.ID.length) := by
    intro h
    have h' : ¬ 8 ≤ e.ID.length := by omega
    simp only [ExampleStruct.Process, sliceTo, if_neg h']
    rfl
  refine ⟨⟨?_, ?_⟩, hshort, ?_⟩
  · rintro ⟨s, hs⟩
    by_contra hlt
    rw [hshort (by omega)] at hs
    cases hs
  · intro h
    simp only [ExampleStruct.Process, sliceTo, if_pos h]
    exact ⟨_, rfl⟩
  · intro h
    refine ⟨?_, ?_⟩
    · have := hshort (by simp [h])
      simpa [h] using this
    · intro σ gen
      simp [ExampleStruct.Validate, h]

set_option maxRecDepth 100000 in
/-- C10 at a struct whose ID has 5 bytes. -/
theorem Process_returns_iff_witness :
    (lit "short").length < 8 ∧
      (ExampleStruct.mk (lit "short") (lit "test") 42).Process =
        Except.error (Panic.sliceBoundsOutOfRange 8 5) :=
  ⟨by decide,
    (Process_returns_iff (ExampleStruct.mk (lit "short") (lit "test") 42)).2.1 (by decide)⟩

/-! ## The claims on the identifier functions -/

/-- The validity check decides well-formedness. -/
theorem IsIdValid_iff_WellFormed (token : GoString) :
    id.IsIdValid token = true ↔ id.WellFormed token := by
  simp [id.IsIdValid, id.WellFormed, List.all_eq_true, and_assoc]

/-- C7: with the identifier service of the spec as generator, the identifier `GenerateID`
returns and the ID of the struct `NewExampleStruct` returns are non-empty, 26 characters long
and accepted by the validity check. -/
theorem GenerateID_valid (w : id.World) :
    ((GenerateID id.NewGenerator w).1 ≠ [] ∧
      (GenerateID id.NewGenerator w).1.length = 26 ∧
      id.NewGenerator.IsIdValid (GenerateID id.NewGenerator w).1 = true) ∧
    ∀ (name : GoString) (value : Int),
      ∃ e, (NewExampleStruct id.NewGenerator w name value).1 = some e ∧
        e.ID ≠ [] ∧ e.ID.length = 26 ∧ id.NewGenerator.IsIdValid e.ID = true := by
  have h : (id.NewGenerator.Generate w).1 ≠ [] ∧ (id.NewGenerator.Generate w).1.length = 26 ∧
      id.NewGenerator.IsIdValid (id.NewGenerator.Generate w).1 = true := by
    rw [NewGenerator_Generate, NewGenerator_IsIdValid]
    exact ⟨Generate_ne_nil w, id.length_Generate w, id.IsIdValid_Generate w⟩
  exact ⟨h, fun name value => ⟨_, rfl, h⟩⟩

/-- C8: with the identifier service of the spec as generator, on a string that is not a
well-formed identifier the validity check returns false, `GetIDTimestamp` and `GetIDAge` return
the error `InvalidFormat`, and `CompareIDs` returns it with the string as either argument,
whatever the other argument is; every one of them returns, none panics. -/
theorem invalid_id_errors (s : GoString) (h : ¬ id.WellFormed s) :
    id.NewGenerator.IsIdValid s = false ∧
    GetIDTimestamp id.NewGenerator s = Except.error IdError.InvalidFormat ∧
    (∀ w, GetIDAge id.NewGenerator w s = Except.error IdError.InvalidFormat) ∧
    (∀ other, CompareIDs id.NewGenerator s other = Except.error IdError.InvalidFormat ∧
      CompareIDs id.NewGenerator other s = Except.error IdError.InvalidFormat) := by
  have hv : id.IsIdValid s = false := by
    rw [Bool.eq_false_iff]
    intro hc
    exact h ((IsIdValid_iff_WellFormed s).mp hc)
  refine ⟨hv, ?_, ?_, ?_⟩
  · simp [GetIDTimestamp, NewGenerator_ExtractTimestamp, id.ExtractTimestamp, hv]
  · intro w
    simp [GetIDAge, NewGenerator_Age, id.Age, hv]
  · intro other
    simp [CompareIDs, NewGenerator_Compare, id.Compare, hv]

set_option maxRecDepth 100000 in
/-- C8 at the string `invalid-id` of the tests. -/
theorem invalid_id_errors_witness :
    ¬ id.WellFormed (lit "invalid-id") ∧
      id.NewGenerator.IsIdValid (lit "invalid-id") = false ∧
      GetIDTimestamp id.NewGenerator (lit "invalid-id") = Except.error IdError.InvalidFormat :=
  have h : ¬ id.WellFormed (lit "invalid-id") := by decide
  ⟨h, (invalid_id_errors (lit "invalid-id") h).1, (invalid_id_errors (lit "invalid-id") h).2.1⟩

/-- C9: with the identifier service of the spec as generator, `CompareIDs` of a valid
identifier with itself returns 0 and no error, and `CompareIDs` of two valid identifiers returns
-1, 0 or 1 and no error. -/
theorem CompareIDs_valid (x y : GoString) (hx : id.NewGenerator.IsIdValid x = true)
    (hy : id.NewGenerator.IsIdValid y = true) :
    CompareIDs id.NewGenerator x x = Except.ok 0 ∧
    (CompareIDs id.NewGenerator x y = Except.ok (-1) ∨
      CompareIDs id.NewGenerator x y = Except.ok 0 ∨
      CompareIDs id.NewGenerator x y = Except.ok 1) := by
  rw [NewGenerator_IsIdValid] at hx hy
  refine ⟨?_, ?_⟩
  · simp [CompareIDs, NewGenerator_Compare, id.Compare, hx, id.lexCompare_self]
  · simp only [CompareIDs, NewGenerator_Compare, id.Compare, hx, hy, Bool.and_self, if_true]
    by_cases h1 : id.timestampOf x < id.timestampOf y
    · simp [h1]
    · by_cases h2 : id.timestampOf y < id.timestampOf x
      · simp [h1, h2]
      · simp only [h1, h2, if_false]
        rcases id.lexCompare_range x y with h | h | h <;> simp [h]

set_option maxRecDepth 100000 in
/-- C9 at two valid identifiers with the same timestamp. -/
theorem CompareIDs_valid_witness :
    (id.NewGenerator.IsIdValid exampleID = true ∧
        id.NewGenerator.IsIdValid (lit "01ARZ3NDEKTSV4RRFFQ69G5FAW") = true) ∧
      CompareIDs id.NewGenerator exampleID exampleID = Except.ok 0 :=
  ⟨⟨by decide, by decide⟩,
    (CompareIDs_valid exampleID (lit "01ARZ3NDEKTSV4RRFFQ69G5FAW") (by decide) (by decide)).1⟩

end Oss
